import Mathlib

/-!
# distributed-go: a liveness probe between two nodes

A shallow embedding of `main.go`: the payload types, the RPC method `Node.Ping`,
the formatting verbs the program uses, and the control flow of `main` as a trace
of observable events driven by the outcomes of the operating-system calls.
-/

namespace DistributedGo

/-! ## Formatting (`fmt.Sprintf` with the verbs used by the program) -/

/-- The byte `'0' + d` written by the integer formatter for one decimal digit. -/
def digitChar (d : Nat) : Char := Char.ofNat (48 + d)

/-- The digit loop of the integer formatter: while `u >= 10` the low digit is stored in
front of what was written so far and `u` is divided by ten; the last digit is stored when
`u < 10`.  `fuel` bounds the number of iterations; `fuel = u` is always enough. -/
def fmtDigits : Nat → Nat → List Char → List Char
  | 0, u, acc => digitChar (u % 10) :: acc
  | fuel + 1, u, acc =>
    if 10 ≤ u then fmtDigits fuel (u / 10) (digitChar (u % 10) :: acc)
    else digitChar u :: acc

/-- The characters `%d` produces for an integer: the digits of the magnitude, with a
leading `-` when the value is negative.  The program does no arithmetic on IDs and ports,
so they are kept as integers; for every value of Go's `int` the magnitude the formatter
computes in `uint64` is the absolute value. -/
def decimalChars (v : Int) : List Char :=
  if v < 0 then '-' :: fmtDigits v.natAbs v.natAbs []
  else fmtDigits v.natAbs v.natAbs []

/-- The decimal rendering of an integer, as `%d` prints it. -/
def decimal (v : Int) : String := ⟨decimalChars v⟩

/-- An operand of a formatting call. -/
inductive Arg where
  | int (v : Int)
  | str (s : String)
  | err (e : String)
  deriving DecidableEq, Repr

/-- The type name the formatter prints for an operand whose verb does not fit. -/
def Arg.typeName : Arg → String
  | .int _ => "int"
  | .str _ => "string"
  | .err _ => "*errors.errorString"

/-- The default (`%v`) rendering of an operand. -/
def Arg.value : Arg → List Char
  | .int v => decimalChars v
  | .str s => s.data
  | .err e => e.data

/-- One verb applied to one operand: `%d` on integers, `%s` on strings and errors,
`%v` on anything; any other combination prints the bad-verb form. -/
def fmtVerb (verb : Char) (a : Arg) : List Char :=
  match verb, a with
  | 'v', a => a.value
  | 'd', .int v => decimalChars v
  | 's', .str s => s.data
  | 's', .err e => e.data
  | c, a => '%' :: '!' :: c :: '(' :: (a.typeName.data ++ '=' :: (a.value ++ [')']))

/-- The text appended for operands no verb consumed. -/
def fmtExtra : List Arg → List Char
  | [] => []
  | [a] => a.typeName.data ++ '=' :: a.value
  | a :: rest => a.typeName.data ++ '=' :: (a.value ++ ',' :: ' ' :: fmtExtra rest)

/-- The formatting loop: plain characters are copied, `%%` prints a percent sign, a verb
consumes the next operand (or prints the missing-operand form), and operands left over at
the end are reported. -/
def sprintfChars : List Char → List Arg → List Char
  | [], [] => []
  | [], a :: rest => "%!(EXTRA ".data ++ (fmtExtra (a :: rest) ++ [')'])
  | ['%'], _ => "%!(NOVERB)".data
  | '%' :: '%' :: fmt, args => '%' :: sprintfChars fmt args
  | '%' :: c :: fmt, [] => '%' :: '!' :: c :: ("(MISSING)".data ++ sprintfChars fmt [])
  | '%' :: c :: fmt, a :: rest => fmtVerb c a ++ sprintfChars fmt rest
  | c :: fmt, args => c :: sprintfChars fmt args

/-- The model of `fmt.Sprintf`. -/
def Sprintf (format : String) (args : List Arg) : String :=
  ⟨sprintfChars format.data args⟩

/-! ## Communication protocol -/

/-- The request payload. -/
structure PingArgs where
  ID : Int
  deriving DecidableEq, Repr

/-- The response payload. -/
structure PingReply where
  Message : String
  deriving DecidableEq, Repr

/-- The state of a single server in the cluster. -/
structure Node where
  ID : Int
  deriving DecidableEq, Repr

/-- Everything a call of `Ping` can touch: the receiver, the request and the reply buffer
it holds pointers to, the text it wrote to standard output, and the error it returned
(`none` is Go's `nil`). -/
structure PingResult where
  node : Node
  args : PingArgs
  reply : PingReply
  stdout : String
  err : Option String
  deriving DecidableEq, Repr

/-- The RPC method `(*Node).Ping`: it prints the receipt line, overwrites `reply.Message`
with the greeting and returns `nil`. -/
def Ping (n : Node) (args : PingArgs) (reply : PingReply) : PingResult :=
  { node := n
    args := args
    reply := { reply with
      Message := Sprintf "Hello %d, I am Node %d and I am alive!" [.int args.ID, .int n.ID] }
    stdout := Sprintf "[Node %d] Received Ping from Node %d\n" [.int n.ID, .int args.ID]
    err := none }

/-- Two calls handled one after the other by the same node: the receiver of the second
call is the node as the first call left it; each call has its own request and its own
reply buffer. -/
def pingTwice (n : Node) (a₁ : PingArgs) (r₁ : PingReply) (a₂ : PingArgs) (r₂ : PingReply) :
    PingResult × PingResult :=
  let first := Ping n a₁ r₁
  (first, Ping first.node a₂ r₂)

/-- A node handling a sequence of requests one after the other; the result is the node
after the last call. -/
def serveAll (n : Node) : List (PingArgs × PingReply) → Node
  | [] => n
  | (a, r) :: rest => serveAll (Ping n a r).node rest

/-! ## The server side of one call -/

/-- What the RPC server does with one request on a connection once `node` is registered:
the method is looked up by its name `Node.Ping`, the handler gets a fresh reply value,
and the answer is the handler's error together with the reply it filled in; an unknown
name is answered with an error and an empty reply. -/
def serveRequest (node : Node) (serviceMethod : String) (args : PingArgs) :
    Option String × PingReply :=
  if serviceMethod = "Node.Ping" then
    let res := Ping node args { Message := "" }
    (res.err, res.reply)
  else
    (some ("rpc: can't find service " ++ serviceMethod), { Message := "" })

/-- The result of `client.Call` against a peer that is `node` serving its methods: the
error, and the caller's reply variable after the call.  A reply is stored only when the
call succeeded, and an empty `Message` is not transmitted, so the caller's value then
stays as it was. -/
def callPeer (node : Node) (serviceMethod : String) (args : PingArgs) (reply : PingReply) :
    Option String × PingReply :=
  match serveRequest node serviceMethod args with
  | (none, r) => (none, if r.Message = "" then reply else r)
  | (some e, _) => (some e, reply)

/-! ## Bootstrap logic -/

/-- The startup inputs: the values of the flags `-id`, `-port` and `-peer`. -/
structure Flags where
  id : Int
  port : Int
  peer : String
  deriving DecidableEq, Repr

/-- The outcomes of the calls `main` makes outside the program: `net.Listen` and
`rpc.Dial` answer with an error or `none`; `client.Call` answers with an error or `none`
and the value of the reply variable after the call. -/
structure Env where
  listen : String → String → Option String
  dial : String → String → Option String
  call : String → PingArgs → PingReply → Option String × PingReply

/-- The observable steps of the main goroutine, in program order. -/
inductive Event where
  | register (node : Node)
  | listen (network addr : String) (err : Option String)
  | print (text : String)
  | goAcceptLoop
  | sleep (seconds : Nat)
  | dial (network addr : String) (err : Option String)
  | call (serviceMethod : String) (args : PingArgs) (err : Option String) (reply : PingReply)
  | close
  deriving DecidableEq, Repr

/-- How the main goroutine ends: it panics, or it blocks forever in `select {}`.  There is
no path on which it returns. -/
inductive Outcome where
  | panic (err : String)
  | blocked
  deriving DecidableEq, Repr

/-- One run of `main`. -/
structure Run where
  trace : List Event
  outcome : Outcome
  deriving DecidableEq, Repr

/-- The node `main` constructs from the `-id` flag. -/
def newNode (f : Flags) : Node := { ID := f.id }

/-- The address `main` listens on. -/
def listenAddr (f : Flags) : String := Sprintf ":%d" [.int f.port]

/-- Part 3 of `main`: the single outbound call, made only when a peer is configured. -/
def clientLogic (f : Flags) (env : Env) : List Event :=
  if f.peer ≠ "" then
    match env.dial "tcp" ("localhost:" ++ f.peer) with
    | none =>
      let args : PingArgs := { ID := f.id }
      let reply : PingReply := { Message := "" }
      match env.call "Node.Ping" args reply with
      | (none, reply') =>
        [ .dial "tcp" ("localhost:" ++ f.peer) none,
          .call "Node.Ping" args none reply',
          .print (Sprintf ">>> Response from Peer: %s\n" [.str reply'.Message]),
          .close ]
      | (some e, reply') =>
        [ .dial "tcp" ("localhost:" ++ f.peer) none,
          .call "Node.Ping" args (some e) reply',
          .close ]
    | some e =>
      [ .dial "tcp" ("localhost:" ++ f.peer) (some e),
        .print (Sprintf "Could not connect to peer: %v\n" [.err e]) ]
  else []

/-- The function `main` after flag parsing: register the node, listen (a failure
panics), announce, start the accept loop, sleep, run the client logic, block forever. -/
def main (f : Flags) (env : Env) : Run :=
  let node := newNode f
  match env.listen "tcp" (listenAddr f) with
  | some e =>
    { trace := [.register node, .listen "tcp" (listenAddr f) (some e)]
      outcome := .panic e }
  | none =>
    { trace :=
        [ .register node,
          .listen "tcp" (listenAddr f) none,
          .print (Sprintf "Node %d is listening on port %d...\n" [.int f.id, .int f.port]),
          .goAcceptLoop,
          .sleep 2 ] ++ clientLogic f env
      outcome := .blocked }

/-! ## The accept loop -/

/-- A result of `listener.Accept()`: a connection or an error. -/
inductive Accepted where
  | conn (c : Nat)
  | err (e : String)
  deriving DecidableEq, Repr

/-- What a loop iteration asks for when it ends: the next iteration, or leaving the loop. -/
inductive Control where
  | next
  | exit
  deriving DecidableEq, Repr

/-- A goroutine started by the accept loop: `go rpc.ServeConn(conn)`. -/
inductive Spawn where
  | serveConn (c : Nat)
  deriving DecidableEq, Repr

/-- One iteration of the accept loop on the result of `Accept`: an error goes straight to
the next iteration; a connection is handed to a new `rpc.ServeConn` goroutine. -/
def acceptBody : Accepted → List Spawn × Control
  | .err _ => ([], .next)
  | .conn c => ([.serveConn c], .next)

/-- The state of the accept loop after the accept results delivered so far. -/
structure LoopRun where
  spawned : List Spawn
  iterations : Nat
  exited : Bool
  deriving DecidableEq, Repr

/-- The `for { ... }` loop of the server goroutine run on a sequence of accept results:
iterations follow one another until one asks to leave the loop; when the results are used
up the loop is waiting in `Accept`. -/
def acceptLoop : List Accepted → LoopRun
  | [] => { spawned := [], iterations := 0, exited := false }
  | r :: rest =>
    match acceptBody r with
    | (sp, .exit) => { spawned := sp, iterations := 1, exited := true }
    | (sp, .next) =>
      let run := acceptLoop rest
      { spawned := sp ++ run.spawned, iterations := run.iterations + 1, exited := run.exited }

/-- The connection a successful accept hands over, if any. -/
def Accepted.handled : Accepted → Option Spawn
  | .conn c => some (.serveConn c)
  | .err _ => none

/-! ### Reading a rendering back -/

/-- The value of a digit character. -/
def digitVal (c : Char) : Nat := c.toNat - 48

/-- The number a digit string denotes, most significant digit first. -/
def readDigits (cs : List Char) : Nat :=
  cs.foldl (fun acc c => acc * 10 + digitVal c) 0

/-! ## Event classes and the environments used as concrete inputs -/

/-- A peer that is node 1 serving `Node.Ping`, reachable, while the local listen succeeds. -/
def peerNodeOne : Env :=
  { listen := fun _ _ => none, dial := fun _ _ => none, call := callPeer ⟨1⟩ }

/-- Whether an event is a line written to standard output. -/
def Event.isPrint : Event → Bool
  | .print _ => true
  | _ => false

/-- Whether an event is the start of the accept loop. -/
def Event.isGo : Event → Bool
  | .goAcceptLoop => true
  | _ => false

/-- Whether an event is a dial attempt. -/
def Event.isDial : Event → Bool
  | .dial _ _ _ => true
  | _ => false

/-- Whether an event is an outbound call. -/
def Event.isCall : Event → Bool
  | .call _ _ _ _ => true
  | _ => false

/-- The listen succeeds, the peer is reachable, and the call on the established
connection returns an error. -/
def callFails : Env :=
  { listen := fun _ _ => none, dial := fun _ _ => none,
    call := fun _ _ reply => (some "unexpected EOF", reply) }

/-- The listen fails because the port is taken. -/
def portTaken : Env :=
  { listen := fun _ _ => some "listen tcp :8001: bind: address already in use",
    dial := fun _ _ => none, call := callPeer ⟨1⟩ }

/-- The listen succeeds and nobody listens on the peer port. -/
def peerDown : Env :=
  { listen := fun _ _ => none,
    dial := fun _ _ => some "dial tcp 127.0.0.1:8000: connect: connection refused",
    call := fun _ _ reply => (some "rpc: client is shut down", reply) }

/-! ## The wire format

`rpc.Dial`, `client.Call` and `rpc.ServeConn` exchange values in the gob encoding of Go's
standard library.  The definitions below follow the documented encoding of the values
the program sends: unsigned and signed integers, strings, structs as field-delta/value
pairs with zero fields omitted, and the length-prefixed message that carries the type id
and the value.  The type-definition message that precedes the first value of a type and
the header message sent before each body do not depend on the value and are left out;
the type id they establish is a parameter.  A byte is a natural number below 256; a Go
string is read as the sequence of its bytes, one character per byte. -/

/-- The minimal big-endian bytes of `x`, in front of `acc`; `fuel` bounds their number
(8 for a 64-bit value). -/
def beBytes : Nat → Nat → List Nat → List Nat
  | 0, _, acc => acc
  | fuel + 1, x, acc => if x = 0 then acc else beBytes fuel (x / 256) (x % 256 :: acc)

/-- An unsigned integer on the wire: a value below 128 is one byte; otherwise the
minimal big-endian bytes follow one byte holding their count, negated. -/
def encodeUint (x : Nat) : List Nat :=
  if x ≤ 0x7F then [x]
  else (256 - (beBytes 8 x []).length) :: beBytes 8 x []

/-- Reading an unsigned integer: a first byte up to `0x7f` is the value; otherwise it is
a negated byte count, which must not exceed 8 nor the bytes available, and the value is
assembled from that many bytes, high byte first, in 64-bit arithmetic. -/
def decodeUint : List Nat → Option (Nat × List Nat)
  | [] => none
  | b :: rest =>
    if b ≤ 0x7F then some (b, rest)
    else
      let n := 256 - b
      if 8 < n then none
      else if rest.length < n then none
      else some ((rest.take n).foldl (fun x c => (x * 256 + c) % 2 ^ 64) 0, rest.drop n)

/-- The conversion of a signed value to `uint64`. -/
def toUint64 (i : Int) : Nat := (i % 2 ^ 64).toNat

/-- A signed integer on the wire: it is carried by an unsigned integer whose bit 0 says
whether the remaining bits are to be complemented; `^i` is `-i - 1`. -/
def encodeInt (i : Int) : List Nat :=
  if i < 0 then encodeUint (toUint64 ((-i - 1) * 2) ||| 1)
  else encodeUint (toUint64 (i * 2))

/-- Reading a signed integer: the unsigned value shifted right by one, complemented when
bit 0 was set. -/
def decodeInt (bs : List Nat) : Option (Int × List Nat) :=
  match decodeUint bs with
  | none => none
  | some (x, rest) =>
    if x &&& 1 ≠ 0 then some (-((x >>> 1 : Nat) : Int) - 1, rest)
    else some (((x >>> 1 : Nat) : Int), rest)

/-- A string on the wire: its byte count, then its bytes. -/
def encodeString (s : String) : List Nat :=
  encodeUint s.length ++ s.data.map Char.toNat

/-- Reading a string: the count, which must not exceed the bytes available, then that
many bytes. -/
def decodeString (bs : List Nat) : Option (String × List Nat) :=
  match decodeUint bs with
  | none => none
  | some (n, rest) =>
    if rest.length < n then none
    else some (⟨(rest.take n).map Char.ofNat⟩, rest.drop n)

/-- The struct `PingArgs` on the wire: field 0 (`ID`) as delta 1 and its value unless it
is zero, then the terminating delta 0. -/
def encodePingArgs (a : PingArgs) : List Nat :=
  (if a.ID = 0 then [] else encodeUint 1 ++ encodeInt a.ID) ++ encodeUint 0

/-- The struct `PingReply` on the wire: field 0 (`Message`) as delta 1 and its value
unless it is empty, then the terminating delta 0. -/
def encodePingReply (r : PingReply) : List Nat :=
  (if r.Message = "" then [] else encodeUint 1 ++ encodeString r.Message) ++ encodeUint 0

/-- The struct decoding loop for `PingArgs`, storing into `v`: while bytes remain, read a
delta; zero ends the struct; a delta that leads past the only field is an error;
otherwise the field value is read and stored.  `fuel` bounds the iterations. -/
def decodePingArgsFields : Nat → Int → PingArgs → List Nat → Option (PingArgs × List Nat)
  | 0, _, _, _ => none
  | fuel + 1, fieldnum, v, bs =>
    if bs = [] then some (v, [])
    else
      match decodeUint bs with
      | none => none
      | some (delta, rest) =>
        if delta = 0 then some (v, rest)
        else if fieldnum ≥ 1 - (delta : Int) then none
        else
          match decodeInt rest with
          | none => none
          | some (i, rest') =>
            decodePingArgsFields fuel (fieldnum + delta) { v with ID := i } rest'

/-- The struct decoding loop for `PingReply`, storing into `v`. -/
def decodePingReplyFields : Nat → Int → PingReply → List Nat → Option (PingReply × List Nat)
  | 0, _, _, _ => none
  | fuel + 1, fieldnum, v, bs =>
    if bs = [] then some (v, [])
    else
      match decodeUint bs with
      | none => none
      | some (delta, rest) =>
        if delta = 0 then some (v, rest)
        else if fieldnum ≥ 1 - (delta : Int) then none
        else
          match decodeString rest with
          | none => none
          | some (m, rest') =>
            decodePingReplyFields fuel (fieldnum + delta) { v with Message := m } rest'

/-- Decoding a `PingArgs` struct into `v`; the field number starts at -1. -/
def decodePingArgs (v : PingArgs) (bs : List Nat) : Option (PingArgs × List Nat) :=
  decodePingArgsFields (bs.length + 1) (-1) v bs

/-- Decoding a `PingReply` struct into `v`; the field number starts at -1. -/
def decodePingReply (v : PingReply) (bs : List Nat) : Option (PingReply × List Nat) :=
  decodePingReplyFields (bs.length + 1) (-1) v bs

/-- A value message: the byte count of the payload, then the payload, which is the type
id followed by the encoded struct. -/
def encodeMessage (typeId : Int) (body : List Nat) : List Nat :=
  encodeUint (encodeInt typeId ++ body).length ++ (encodeInt typeId ++ body)

/-- Receiving one message from the stream: the payload and the rest of the stream. -/
def recvMessage (bs : List Nat) : Option (List Nat × List Nat) :=
  match decodeUint bs with
  | none => none
  | some (n, rest) => if rest.length < n then none else some (rest.take n, rest.drop n)

/-- Sending a request payload under the type id the connection assigned to `PingArgs`. -/
def sendPingArgs (typeId : Int) (a : PingArgs) : List Nat :=
  encodeMessage typeId (encodePingArgs a)

/-- Sending a reply payload under the type id the connection assigned to `PingReply`. -/
def sendPingReply (typeId : Int) (r : PingReply) : List Nat :=
  encodeMessage typeId (encodePingReply r)

/-- Receiving a request payload into `v`: one message, whose type id must be the expected
one, then the struct; the result is the value and the rest of the stream. -/
def recvPingArgs (typeId : Int) (v : PingArgs) (bs : List Nat) :
    Option (PingArgs × List Nat) :=
  match recvMessage bs with
  | none => none
  | some (payload, rest) =>
    match decodeInt payload with
    | none => none
    | some (id, body) =>
      if id ≠ typeId then none
      else
        match decodePingArgs v body with
        | none => none
        | some (a, _) => some (a, rest)

/-- Receiving a reply payload into `v`. -/
def recvPingReply (typeId : Int) (v : PingReply) (bs : List Nat) :
    Option (PingReply × List Nat) :=
  match recvMessage bs with
  | none => none
  | some (payload, rest) =>
    match decodeInt payload with
    | none => none
    | some (id, body) =>
      if id ≠ typeId then none
      else
        match decodePingReply v body with
        | none => none
        | some (r, _) => some (r, rest)

/-! # Theorems -/

/-! ## Formatting -/

theorem Ping_node1_sender2 :
    (Ping ⟨1⟩ ⟨2⟩ ⟨""⟩).reply.Message = "Hello 2, I am Node 1 and I am alive!" := by
  decide

theorem decimal_neg120 : decimal (-120) = "-120" := by decide

theorem decimal_zero : decimal 0 = "0" := by decide

theorem Sprintf_bad_operands :
    Sprintf "%d%% %s %x" [.int 0, .int 5] = "0% %!s(int=5) %!x(MISSING)" := by
  decide

theorem greeting_eq (s n : Int) :
    Sprintf "Hello %d, I am Node %d and I am alive!" [.int s, .int n]
      = "Hello " ++ decimal s ++ ", I am Node " ++ decimal n ++ " and I am alive!" := by
  apply String.ext
  simp only [Sprintf, String.data_append, List.append_assoc, decimal]
  rfl

/-! ### Reading a rendering back -/

theorem digitChar_toNat (d : Nat) (h : d < 10) : (digitChar d).toNat = 48 + d := by
  interval_cases d <;> decide

theorem digitVal_digitChar (d : Nat) (h : d < 10) : digitVal (digitChar d) = d := by
  simp [digitVal, digitChar_toNat d h]

theorem digitChar_ne_minus (d : Nat) (h : d < 10) : digitChar d ≠ '-' := by
  interval_cases d <;> decide

theorem fmtDigits_append (fuel u : Nat) (acc : List Char) :
    fmtDigits fuel u acc = fmtDigits fuel u [] ++ acc := by
  induction fuel generalizing u acc with
  | zero => simp [fmtDigits]
  | succ k ih =>
    unfold fmtDigits
    by_cases h : 10 ≤ u
    · rw [if_pos h, if_pos h, ih (u / 10) (digitChar (u % 10) :: acc),
        ih (u / 10) [digitChar (u % 10)]]
      simp
    · rw [if_neg h, if_neg h]
      simp

theorem readDigits_snoc (cs : List Char) (c : Char) :
    readDigits (cs ++ [c]) = readDigits cs * 10 + digitVal c := by
  simp [readDigits, List.foldl_append]

theorem readDigits_fmtDigits (fuel u : Nat) (h : u ≤ fuel) :
    readDigits (fmtDigits fuel u []) = u := by
  induction fuel generalizing u with
  | zero =>
    have hu : u = 0 := by omega
    subst hu
    decide
  | succ k ih =>
    unfold fmtDigits
    by_cases h10 : 10 ≤ u
    · rw [if_pos h10, fmtDigits_append, readDigits_snoc, ih (u / 10) (by omega),
        digitVal_digitChar _ (Nat.mod_lt _ (by decide))]
      omega
    · rw [if_neg h10]
      simp [readDigits, digitVal_digitChar u (by omega)]

theorem minus_not_mem_fmtDigits (fuel u : Nat) : '-' ∉ fmtDigits fuel u [] := by
  induction fuel generalizing u with
  | zero =>
    simp only [fmtDigits, List.mem_singleton]
    exact fun h => digitChar_ne_minus _ (Nat.mod_lt _ (by decide)) h.symm
  | succ k ih =>
    unfold fmtDigits
    by_cases h10 : 10 ≤ u
    · rw [if_pos h10, fmtDigits_append]
      simp only [List.mem_append, List.mem_singleton, not_or]
      exact ⟨ih _, fun h => digitChar_ne_minus _ (Nat.mod_lt _ (by decide)) h.symm⟩
    · rw [if_neg h10]
      simp only [List.mem_singleton]
      exact fun h => digitChar_ne_minus _ (by omega) h.symm

theorem fmtDigits_injective (a b : Nat)
    (h : fmtDigits a a [] = fmtDigits b b []) : a = b := by
  have ha := readDigits_fmtDigits a a (le_refl a)
  have hb := readDigits_fmtDigits b b (le_refl b)
  rw [h] at ha
  omega

theorem decimalChars_injective (a b : Int) (h : decimalChars a = decimalChars b) : a = b := by
  unfold decimalChars at h
  by_cases ha : a < 0 <;> by_cases hb : b < 0
  · rw [if_pos ha, if_pos hb] at h
    have := fmtDigits_injective _ _ (List.cons.inj h).2
    omega
  · rw [if_pos ha, if_neg hb] at h
    exact absurd (h ▸ List.mem_cons_self _ _) (minus_not_mem_fmtDigits _ _)
  · rw [if_neg ha, if_pos hb] at h
    exact absurd (h ▸ List.mem_cons_self _ _) (minus_not_mem_fmtDigits _ _)
  · rw [if_neg ha, if_neg hb] at h
    have := fmtDigits_injective _ _ h
    omega

theorem decimal_injective (a b : Int) (h : decimal a = decimal b) : a = b :=
  decimalChars_injective a b (congrArg String.data h)

/-! ## Properties of `Ping` -/

/-- C1: for every node ID `n` and every sender ID `s`, `Ping` returns no error and sets
the reply message to `"Hello " ++ decimal s ++ ", I am Node " ++ decimal n ++
" and I am alive!"`, whatever the reply buffer held; so the message contains the decimal
rendering of both `s` and `n`. -/
theorem Ping_sets_greeting (n s : Int) (reply : PingReply) :
    (Ping ⟨n⟩ ⟨s⟩ reply).err = none ∧
    (Ping ⟨n⟩ ⟨s⟩ reply).reply.Message =
      "Hello " ++ decimal s ++ ", I am Node " ++ decimal n ++ " and I am alive!" ∧
    (∃ pre post, (Ping ⟨n⟩ ⟨s⟩ reply).reply.Message = pre ++ decimal s ++ post) ∧
    (∃ pre post, (Ping ⟨n⟩ ⟨s⟩ reply).reply.Message = pre ++ decimal n ++ post) := by
  have hmsg := greeting_eq s n
  refine ⟨rfl, hmsg, ⟨"Hello ", ", I am Node " ++ decimal n ++ " and I am alive!", ?_⟩,
    ⟨"Hello " ++ decimal s ++ ", I am Node ", " and I am alive!", ?_⟩⟩
  · show Sprintf _ _ = _
    rw [hmsg]
    simp only [String.append_assoc]
  · show Sprintf _ _ = _
    rw [hmsg]

theorem greeting_ne_empty (s n : Int) :
    Sprintf "Hello %d, I am Node %d and I am alive!" [.int s, .int n] ≠ "" := by
  intro h
  have := congrArg String.data h
  simp [Sprintf, sprintfChars] at this

theorem greeting_injective (s₁ s₂ n : Int)
    (h : Sprintf "Hello %d, I am Node %d and I am alive!" [.int s₁, .int n]
      = Sprintf "Hello %d, I am Node %d and I am alive!" [.int s₂, .int n]) : s₁ = s₂ := by
  rw [greeting_eq, greeting_eq] at h
  have h' := congrArg String.data h
  simp only [String.data_append, List.append_assoc] at h'
  have h'' := List.append_cancel_left h'
  have h3 := List.append_cancel_right h''
  exact decimalChars_injective _ _ h3

/-- C3: no cross-talk.  For every node and every two calls with different sender IDs,
handled in either order and whatever the two reply buffers held, each call's reply
message is the greeting for its own sender ID, and the two messages differ. -/
theorem Ping_no_cross_talk (n s₁ s₂ : Int) (b₁ b₂ : PingReply) (h : s₁ ≠ s₂) :
    (pingTwice ⟨n⟩ ⟨s₁⟩ b₁ ⟨s₂⟩ b₂).1.reply.Message =
      "Hello " ++ decimal s₁ ++ ", I am Node " ++ decimal n ++ " and I am alive!" ∧
    (pingTwice ⟨n⟩ ⟨s₁⟩ b₁ ⟨s₂⟩ b₂).2.reply.Message =
      "Hello " ++ decimal s₂ ++ ", I am Node " ++ decimal n ++ " and I am alive!" ∧
    (pingTwice ⟨n⟩ ⟨s₂⟩ b₂ ⟨s₁⟩ b₁).1.reply.Message =
      "Hello " ++ decimal s₂ ++ ", I am Node " ++ decimal n ++ " and I am alive!" ∧
    (pingTwice ⟨n⟩ ⟨s₂⟩ b₂ ⟨s₁⟩ b₁).2.reply.Message =
      "Hello " ++ decimal s₁ ++ ", I am Node " ++ decimal n ++ " and I am alive!" ∧
    (pingTwice ⟨n⟩ ⟨s₁⟩ b₁ ⟨s₂⟩ b₂).1.reply.Message ≠
      (pingTwice ⟨n⟩ ⟨s₁⟩ b₁ ⟨s₂⟩ b₂).2.reply.Message ∧
    (pingTwice ⟨n⟩ ⟨s₂⟩ b₂ ⟨s₁⟩ b₁).1.reply.Message ≠
      (pingTwice ⟨n⟩ ⟨s₂⟩ b₂ ⟨s₁⟩ b₁).2.reply.Message := by
  refine ⟨greeting_eq s₁ n, greeting_eq s₂ n, greeting_eq s₂ n, greeting_eq s₁ n, ?_, ?_⟩
  · exact fun e => h (greeting_injective s₁ s₂ n e)
  · exact fun e => h (greeting_injective s₂ s₁ n e).symm

/-- The witness of C3: senders 2 and 3 calling node 1, with stale text in both buffers. -/
theorem Ping_no_cross_talk_witness :
    (pingTwice ⟨1⟩ ⟨2⟩ ⟨"old"⟩ ⟨3⟩ ⟨"stale"⟩).1.reply.Message ≠
      (pingTwice ⟨1⟩ ⟨2⟩ ⟨"old"⟩ ⟨3⟩ ⟨"stale"⟩).2.reply.Message :=
  (Ping_no_cross_talk 1 2 3 ⟨"old"⟩ ⟨"stale"⟩ (by decide)).2.2.2.2.1

theorem serveAll_ID (n : Node) (reqs : List (PingArgs × PingReply)) :
    (serveAll n reqs).ID = n.ID := by
  induction reqs generalizing n with
  | nil => rfl
  | cons q rest ih =>
    obtain ⟨a, r⟩ := q
    show (serveAll (Ping n a r).node rest).ID = n.ID
    rw [ih]
    rfl

/-- C4: node identity is immutable.  `Ping` leaves the ID of the node and the ID of the
request unchanged; the node `main` registers is the one built from the startup input,
and after any sequence of `Ping` calls its ID is still the `-id` value. -/
theorem node_identity_immutable (f : Flags) (env : Env) (n : Node) (args : PingArgs)
    (reply : PingReply) (reqs : List (PingArgs × PingReply)) :
    (Ping n args reply).node.ID = n.ID ∧
    (Ping n args reply).args.ID = args.ID ∧
    (main f env).trace.head? = some (.register (newNode f)) ∧
    (newNode f).ID = f.id ∧
    (serveAll (newNode f) reqs).ID = f.id := by
  refine ⟨rfl, rfl, ?_, rfl, serveAll_ID _ _⟩
  unfold main
  cases env.listen "tcp" (listenAddr f) <;> rfl

/-! ## Properties of `main` -/

theorem listenAddr_eq (f : Flags) : listenAddr f = ":" ++ decimal f.port := by
  apply String.ext
  simp [listenAddr, Sprintf, sprintfChars, fmtVerb, decimal]

theorem responseLine_eq (m : String) :
    Sprintf ">>> Response from Peer: %s\n" [.str m] = ">>> Response from Peer: " ++ m ++ "\n" := by
  apply String.ext
  simp only [Sprintf, String.data_append, List.append_assoc]
  rfl

theorem dialFailure_eq (e : String) :
    Sprintf "Could not connect to peer: %v\n" [.err e]
      = "Could not connect to peer: " ++ e ++ "\n" := by
  apply String.ext
  simp only [Sprintf, String.data_append, List.append_assoc]
  rfl

theorem callPeer_Ping (a b : Int) :
    callPeer ⟨a⟩ "Node.Ping" ⟨b⟩ ⟨""⟩ =
      (none, ⟨"Hello " ++ decimal b ++ ", I am Node " ++ decimal a ++ " and I am alive!"⟩) := by
  have hne := greeting_ne_empty b a
  have heq := greeting_eq b a
  rw [heq] at hne
  simp only [callPeer, serveRequest, Ping, if_true, heq, if_neg hne]

/-- C2: end to end.  When `main` runs with local ID `f.id` and a non-empty peer, the dial
succeeds, and the peer is node `a` serving `Node.Ping`, the request sent carries the local
ID, the reply received is the greeting of node `a` to the local ID, and the line printed
is that greeting after `>>> Response from Peer: `. -/
theorem main_end_to_end (a : Int) (f : Flags) (env : Env)
    (hpeer : f.peer ≠ "")
    (hdial : Event.dial "tcp" ("localhost:" ++ f.peer) none ∈ (main f env).trace)
    (hserve : env.call = callPeer ⟨a⟩) :
    Event.call "Node.Ping" ⟨f.id⟩ none
        ⟨"Hello " ++ decimal f.id ++ ", I am Node " ++ decimal a ++ " and I am alive!"⟩
      ∈ (main f env).trace ∧
    Event.print (">>> Response from Peer: " ++
        ("Hello " ++ decimal f.id ++ ", I am Node " ++ decimal a ++ " and I am alive!") ++ "\n")
      ∈ (main f env).trace := by
  unfold main at hdial ⊢
  cases hl : env.listen "tcp" (listenAddr f) with
  | some e => simp [hl] at hdial
  | none =>
    simp only [hl] at hdial ⊢
    unfold clientLogic at hdial ⊢
    rw [if_pos hpeer] at hdial ⊢
    cases hd : env.dial "tcp" ("localhost:" ++ f.peer) with
    | some e => simp [hd] at hdial
    | none =>
      simp only [hserve, callPeer_Ping, responseLine_eq]
      simp

/-- The witness of C2: node 2 listening on port 8001 with peer `8000`, which is node 1.
The response message is `Hello 2, I am Node 1 and I am alive!` and the line printed is
`>>> Response from Peer: Hello 2, I am Node 1 and I am alive!`. -/
theorem main_end_to_end_witness :
    Event.call "Node.Ping" ⟨2⟩ none ⟨"Hello 2, I am Node 1 and I am alive!"⟩
      ∈ (main ⟨2, 8001, "8000"⟩ peerNodeOne).trace ∧
    Event.print ">>> Response from Peer: Hello 2, I am Node 1 and I am alive!\n"
      ∈ (main ⟨2, 8001, "8000"⟩ peerNodeOne).trace :=
  main_end_to_end 1 ⟨2, 8001, "8000"⟩ peerNodeOne (by decide) (by decide) rfl

/-- C5, the run that breaks it: the listen succeeds, the dial succeeds and the call
returns an error.  `main` goes on to `select {}`, but the only line it ever prints is the
listening announcement: nothing is printed after the failed call. -/
theorem main_call_error_unreported :
    (main ⟨2, 8001, "8000"⟩ callFails).outcome = .blocked ∧
    (main ⟨2, 8001, "8000"⟩ callFails).trace =
      [ .register ⟨2⟩, .listen "tcp" ":8001" none,
        .print "Node 2 is listening on port 8001...\n", .goAcceptLoop, .sleep 2,
        .dial "tcp" "localhost:8000" none,
        .call "Node.Ping" ⟨2⟩ (some "unexpected EOF") ⟨""⟩,
        .close ] ∧
    (main ⟨2, 8001, "8000"⟩ callFails).trace.filter Event.isPrint =
      [.print "Node 2 is listening on port 8001...\n"] := by
  decide

/-- C6: a bind failure is fatal and is the only fatal failure.  `main` panics if and only
if the listen on the configured port fails; when it does, the failed listen is the last
step: nothing was printed, the accept loop was not started, and there was no dial and no
call. -/
theorem main_panics_iff_listen_fails (f : Flags) (env : Env) :
    ((∃ e, (main f env).outcome = .panic e) ↔ env.listen "tcp" (listenAddr f) ≠ none) ∧
    (∀ e, env.listen "tcp" (listenAddr f) = some e →
      (main f env).outcome = .panic e ∧
      (main f env).trace = [.register (newNode f), .listen "tcp" (listenAddr f) (some e)] ∧
      (main f env).trace.filter
        (fun ev => ev.isPrint || ev.isGo || ev.isDial || ev.isCall) = []) := by
  unfold main
  cases hl : env.listen "tcp" (listenAddr f) with
  | some e =>
    refine ⟨⟨fun _ => by simp, fun _ => ⟨e, rfl⟩⟩, ?_⟩
    intro e' he'
    cases he'
    refine ⟨rfl, rfl, ?_⟩
    simp [List.filter, Event.isPrint, Event.isGo, Event.isDial, Event.isCall]
  | none =>
    refine ⟨⟨fun ⟨e, he⟩ => by simp at he, fun h => absurd rfl h⟩, ?_⟩
    intro e he
    cases he

/-- The witness of C6: node 2 on port 8001 when the port is taken. -/
theorem main_panics_iff_listen_fails_witness :
    (main ⟨2, 8001, "8000"⟩ portTaken).outcome
        = .panic "listen tcp :8001: bind: address already in use" ∧
    (main ⟨2, 8001, "8000"⟩ portTaken).trace =
      [ .register (newNode ⟨2, 8001, "8000"⟩),
        .listen "tcp" (listenAddr ⟨2, 8001, "8000"⟩)
          (some "listen tcp :8001: bind: address already in use") ] ∧
    (main ⟨2, 8001, "8000"⟩ portTaken).trace.filter
        (fun ev => ev.isPrint || ev.isGo || ev.isDial || ev.isCall) = [] :=
  (main_panics_iff_listen_fails ⟨2, 8001, "8000"⟩ portTaken).2
    "listen tcp :8001: bind: address already in use" rfl

/-- The five ways a run of `main` can go, with the trace of each. -/
theorem main_cases (f : Flags) (env : Env) :
    (∃ e, env.listen "tcp" (listenAddr f) = some e ∧
      main f env = ⟨[.register (newNode f), .listen "tcp" (listenAddr f) (some e)], .panic e⟩) ∨
    (env.listen "tcp" (listenAddr f) = none ∧ f.peer = "" ∧
      main f env =
        ⟨[ .register (newNode f), .listen "tcp" (listenAddr f) none,
           .print (Sprintf "Node %d is listening on port %d...\n" [.int f.id, .int f.port]),
           .goAcceptLoop, .sleep 2 ], .blocked⟩) ∨
    (env.listen "tcp" (listenAddr f) = none ∧ f.peer ≠ "" ∧
      ∃ e, env.dial "tcp" ("localhost:" ++ f.peer) = some e ∧
      main f env =
        ⟨[ .register (newNode f), .listen "tcp" (listenAddr f) none,
           .print (Sprintf "Node %d is listening on port %d...\n" [.int f.id, .int f.port]),
           .goAcceptLoop, .sleep 2,
           .dial "tcp" ("localhost:" ++ f.peer) (some e),
           .print ("Could not connect to peer: " ++ e ++ "\n") ], .blocked⟩) ∨
    (env.listen "tcp" (listenAddr f) = none ∧ f.peer ≠ "" ∧
      env.dial "tcp" ("localhost:" ++ f.peer) = none ∧
      ∃ r, env.call "Node.Ping" ⟨f.id⟩ ⟨""⟩ = (none, r) ∧
      main f env =
        ⟨[ .register (newNode f), .listen "tcp" (listenAddr f) none,
           .print (Sprintf "Node %d is listening on port %d...\n" [.int f.id, .int f.port]),
           .goAcceptLoop, .sleep 2,
           .dial "tcp" ("localhost:" ++ f.peer) none,
           .call "Node.Ping" ⟨f.id⟩ none r,
           .print (">>> Response from Peer: " ++ r.Message ++ "\n"),
           .close ], .blocked⟩) ∨
    (env.listen "tcp" (listenAddr f) = none ∧ f.peer ≠ "" ∧
      env.dial "tcp" ("localhost:" ++ f.peer) = none ∧
      ∃ e r, env.call "Node.Ping" ⟨f.id⟩ ⟨""⟩ = (some e, r) ∧
      main f env =
        ⟨[ .register (newNode f), .listen "tcp" (listenAddr f) none,
           .print (Sprintf "Node %d is listening on port %d...\n" [.int f.id, .int f.port]),
           .goAcceptLoop, .sleep 2,
           .dial "tcp" ("localhost:" ++ f.peer) none,
           .call "Node.Ping" ⟨f.id⟩ (some e) r,
           .close ], .blocked⟩) := by
  unfold main clientLogic
  cases hl : env.listen "tcp" (listenAddr f) with
  | some e => exact Or.inl ⟨e, rfl, rfl⟩
  | none =>
    right
    by_cases hp : f.peer = ""
    · left
      simp [hp]
    · right
      cases hd : env.dial "tcp" ("localhost:" ++ f.peer) with
      | some e =>
        left
        refine ⟨rfl, hp, e, rfl, ?_⟩
        simp [hp, dialFailure_eq]
      | none =>
        right
        rcases hc : env.call "Node.Ping" ⟨f.id⟩ ⟨""⟩ with ⟨err, r⟩
        cases err with
        | none =>
          left
          refine ⟨rfl, hp, rfl, r, rfl, ?_⟩
          simp [hp, hc, responseLine_eq]
        | some e =>
          right
          refine ⟨rfl, hp, rfl, e, r, rfl, ?_⟩
          simp [hp, hc]

/-- C7: the client connection is closed exactly once on every exit path.  In every run
in which the dial succeeds, `client.Close` is the last step of the run, it happens once,
and the call (with whatever result it had) comes before it; when no peer is configured,
or the dial fails, or no dial succeeded at all, there is no close. -/
theorem client_closed_exactly_once (f : Flags) (env : Env) :
    ((∃ net addr, Event.dial net addr none ∈ (main f env).trace) →
      (main f env).trace.count .close = 1 ∧
      ∃ pre, (main f env).trace = pre ++ [.close] ∧ Event.close ∉ pre ∧
        Event.call "Node.Ping" ⟨f.id⟩ (env.call "Node.Ping" ⟨f.id⟩ ⟨""⟩).1
          (env.call "Node.Ping" ⟨f.id⟩ ⟨""⟩).2 ∈ pre) ∧
    (f.peer = "" → Event.close ∉ (main f env).trace) ∧
    ((∃ net addr e, Event.dial net addr (some e) ∈ (main f env).trace) →
      Event.close ∉ (main f env).trace) ∧
    ((∀ net addr, Event.dial net addr none ∉ (main f env).trace) →
      Event.close ∉ (main f env).trace) := by
  rcases main_cases f env with ⟨e, _, h⟩ | ⟨_, hp, h⟩ | ⟨_, hp, e, _, h⟩ |
    ⟨_, hp, _, r, hc, h⟩ | ⟨_, hp, _, e, r, hc, h⟩
  · rw [h]
    simp
  · rw [h]
    simp
  · rw [h]
    simp
  · rw [h, hc]
    refine ⟨fun _ => ⟨by simp [List.count_cons],
      [ .register (newNode f), .listen "tcp" (listenAddr f) none,
        .print (Sprintf "Node %d is listening on port %d...\n" [.int f.id, .int f.port]),
        .goAcceptLoop, .sleep 2, .dial "tcp" ("localhost:" ++ f.peer) none,
        .call "Node.Ping" ⟨f.id⟩ none r,
        .print (">>> Response from Peer: " ++ r.Message ++ "\n") ],
      rfl, by simp, by simp⟩, ?_, ?_, ?_⟩
    · exact fun h0 => absurd h0 hp
    · simp
    · intro hno
      exact absurd (by simp) (hno "tcp" ("localhost:" ++ f.peer))
  · rw [h, hc]
    refine ⟨fun _ => ⟨by simp [List.count_cons],
      [ .register (newNode f), .listen "tcp" (listenAddr f) none,
        .print (Sprintf "Node %d is listening on port %d...\n" [.int f.id, .int f.port]),
        .goAcceptLoop, .sleep 2, .dial "tcp" ("localhost:" ++ f.peer) none,
        .call "Node.Ping" ⟨f.id⟩ (some e) r ],
      rfl, by simp, by simp⟩, ?_, ?_, ?_⟩
    · exact fun h0 => absurd h0 hp
    · simp
    · intro hno
      exact absurd (by simp) (hno "tcp" ("localhost:" ++ f.peer))

/-- The witness of C7: node 2 dials node 1 on port 8000, the dial succeeds, and the
close is the last step, after the call. -/
theorem client_closed_exactly_once_witness :
    (main ⟨2, 8001, "8000"⟩ peerNodeOne).trace.count .close = 1 ∧
    ∃ pre, (main ⟨2, 8001, "8000"⟩ peerNodeOne).trace = pre ++ [.close] ∧ Event.close ∉ pre ∧
      Event.call "Node.Ping" ⟨2⟩ (peerNodeOne.call "Node.Ping" ⟨2⟩ ⟨""⟩).1
        (peerNodeOne.call "Node.Ping" ⟨2⟩ ⟨""⟩).2 ∈ pre :=
  (client_closed_exactly_once ⟨2, 8001, "8000"⟩ peerNodeOne).1
    ⟨"tcp", "localhost:8000", by decide⟩

/-- C8 as stated fails when the listen fails: with a peer configured, `main` panics
before the client logic, so it makes no dial at all and does not block. -/
theorem main_no_dial_when_listen_fails :
    (⟨2, 8001, "8000"⟩ : Flags).peer ≠ "" ∧
    (main ⟨2, 8001, "8000"⟩ portTaken).trace.filter Event.isDial = [] ∧
    (main ⟨2, 8001, "8000"⟩ portTaken).trace.filter Event.isCall = [] ∧
    (main ⟨2, 8001, "8000"⟩ portTaken).outcome ≠ .blocked := by
  decide

/-- C8, amended: when the listen succeeds, `main` always ends blocked in `select {}`.
With a non-empty peer it makes exactly one dial attempt, to `"localhost:" ++ peer`; if the
dial fails it makes no call and its last step is printing the failure; if the dial
succeeds it makes exactly one call, and when the call succeeds the response line is
printed right after it.  With an empty peer it makes no dial and no call. -/
theorem main_one_outbound_call (f : Flags) (env : Env)
    (hl : env.listen "tcp" (listenAddr f) = none) :
    (main f env).outcome = .blocked ∧
    (f.peer ≠ "" →
      (main f env).trace.filter Event.isDial =
        [.dial "tcp" ("localhost:" ++ f.peer) (env.dial "tcp" ("localhost:" ++ f.peer))] ∧
      (∀ e, env.dial "tcp" ("localhost:" ++ f.peer) = some e →
        (main f env).trace.filter Event.isCall = [] ∧
        (main f env).trace.getLast? =
          some (.print ("Could not connect to peer: " ++ e ++ "\n"))) ∧
      (env.dial "tcp" ("localhost:" ++ f.peer) = none →
        (main f env).trace.filter Event.isCall =
          [.call "Node.Ping" ⟨f.id⟩ (env.call "Node.Ping" ⟨f.id⟩ ⟨""⟩).1
            (env.call "Node.Ping" ⟨f.id⟩ ⟨""⟩).2] ∧
        ((env.call "Node.Ping" ⟨f.id⟩ ⟨""⟩).1 = none →
          ∃ pre post, (main f env).trace = pre ++
            [ .call "Node.Ping" ⟨f.id⟩ none (env.call "Node.Ping" ⟨f.id⟩ ⟨""⟩).2,
              .print (">>> Response from Peer: " ++
                (env.call "Node.Ping" ⟨f.id⟩ ⟨""⟩).2.Message ++ "\n") ] ++ post))) ∧
    (f.peer = "" →
      (main f env).trace.filter Event.isDial = [] ∧
      (main f env).trace.filter Event.isCall = []) := by
  rcases main_cases f env with ⟨e, he, _⟩ | ⟨_, hp, h⟩ | ⟨_, hp, e, hd, h⟩ |
    ⟨_, hp, hd, r, hc, h⟩ | ⟨_, hp, hd, e, r, hc, h⟩
  · rw [hl] at he
    cases he
  · rw [h]
    refine ⟨rfl, fun h0 => absurd hp h0, fun _ => ?_⟩
    simp [List.filter, Event.isDial, Event.isCall]
  · rw [h, hd]
    refine ⟨rfl, fun _ => ⟨?_, ?_, ?_⟩, fun h0 => absurd h0 hp⟩
    · simp [List.filter, Event.isDial]
    · intro e' he'
      cases he'
      simp [List.filter, Event.isCall]
    · intro h0
      cases h0
  · rw [h, hd, hc]
    refine ⟨rfl, fun _ => ⟨?_, ?_, ?_⟩, fun h0 => absurd h0 hp⟩
    · simp [List.filter, Event.isDial]
    · intro e' he'
      cases he'
    · intro _
      refine ⟨by simp [List.filter, Event.isCall], fun _ => ⟨
        [ .register (newNode f), .listen "tcp" (listenAddr f) none,
          .print (Sprintf "Node %d is listening on port %d...\n" [.int f.id, .int f.port]),
          .goAcceptLoop, .sleep 2, .dial "tcp" ("localhost:" ++ f.peer) none ],
        [.close], rfl⟩⟩
  · rw [h, hd, hc]
    refine ⟨rfl, fun _ => ⟨?_, ?_, ?_⟩, fun h0 => absurd h0 hp⟩
    · simp [List.filter, Event.isDial]
    · intro e' he'
      cases he'
    · intro _
      refine ⟨by simp [List.filter, Event.isCall], fun h0 => ?_⟩
      cases h0

/-- The witness of C8: node 2 with peer `8000` when nobody listens there: one dial, no
call, the failure is the last thing printed, and `main` blocks. -/
theorem main_one_outbound_call_witness :
    (main ⟨2, 8001, "8000"⟩ peerDown).outcome = .blocked ∧
    (main ⟨2, 8001, "8000"⟩ peerDown).trace.filter Event.isDial =
      [.dial "tcp" "localhost:8000"
        (some "dial tcp 127.0.0.1:8000: connect: connection refused")] ∧
    (main ⟨2, 8001, "8000"⟩ peerDown).trace.filter Event.isCall = [] ∧
    (main ⟨2, 8001, "8000"⟩ peerDown).trace.getLast? = some (.print
      "Could not connect to peer: dial tcp 127.0.0.1:8000: connect: connection refused\n") :=
  have h := main_one_outbound_call ⟨2, 8001, "8000"⟩ peerDown rfl
  ⟨h.1, (h.2.1 (by decide)).1,
    ((h.2.1 (by decide)).2.1 "dial tcp 127.0.0.1:8000: connect: connection refused" rfl).1,
    ((h.2.1 (by decide)).2.1 "dial tcp 127.0.0.1:8000: connect: connection refused" rfl).2⟩

/-- C9: the accept loop never terminates on an accept result.  For every sequence of
accept results the loop has not exited and has run one iteration per result; the
handlers it started are exactly the successful accepts, one `rpc.ServeConn` per
connection and in order, and a failed accept starts nothing; every single iteration asks
for the next one. -/
theorem acceptLoop_never_exits (rs : List Accepted) :
    (acceptLoop rs).exited = false ∧
    (acceptLoop rs).iterations = rs.length ∧
    (acceptLoop rs).spawned = rs.filterMap Accepted.handled ∧
    (∀ c, acceptBody (.conn c) = ([.serveConn c], .next)) ∧
    (∀ e, acceptBody (.err e) = ([], .next)) := by
  refine ⟨?_, ?_, ?_, fun _ => rfl, fun _ => rfl⟩
  · induction rs with
    | nil => rfl
    | cons r rest ih => cases r <;> simpa [acceptLoop, acceptBody] using ih
  · induction rs with
    | nil => rfl
    | cons r rest ih => cases r <;> simpa [acceptLoop, acceptBody] using ih
  · induction rs with
    | nil => rfl
    | cons r rest ih =>
      cases r <;> simp [acceptLoop, acceptBody, Accepted.handled, List.filterMap_cons, ih]

/-! ## The wire format on the examples of its documentation -/

theorem encodeUint_256 : encodeUint 256 = [0xFE, 0x01, 0x00] := by decide

theorem encodeUint_7 : encodeUint 7 = [0x07] := by decide

theorem encodeInt_neg129 : encodeInt (-129) = [0xFE, 0x01, 0x01] := by decide

theorem encodeInt_22 : encodeInt 22 = [0x2c] := by decide

theorem sendPingArgs_22 : sendPingArgs 65 ⟨22⟩ = [0x05, 0xff, 0x82, 0x01, 0x2c, 0x00] := by decide

theorem recvPingArgs_22 : recvPingArgs 65 ⟨0⟩ [0x05, 0xff, 0x82, 0x01, 0x2c, 0x00, 9] = some (⟨22⟩, [9]) := by
  decide

theorem sendPingReply_Hi : sendPingReply 66 ⟨"Hi"⟩ = [0x07, 0xff, 0x84, 0x01, 0x02, 72, 105, 0x00] := by decide

theorem recvPingReply_Hi : recvPingReply 66 ⟨""⟩ (sendPingReply 66 ⟨"Hi"⟩) = some (⟨"Hi"⟩, []) := by decide

/-- A zero field is not transmitted, so receiving into a value that is not fresh keeps
what the target held; the program only ever receives into fresh zero values. -/
theorem recvPingReply_keeps_target :
    recvPingReply 66 ⟨"old"⟩ (sendPingReply 66 ⟨""⟩) = some (⟨"old"⟩, []) := by decide

theorem recvPingArgs_minInt64 :
    recvPingArgs 65 ⟨0⟩ (sendPingArgs 65 ⟨-9223372036854775808⟩) =
    some (⟨-9223372036854775808⟩, []) := by decide

/-! ### Round trip of the wire format -/

theorem beBytes_append (fuel x : Nat) (acc : List Nat) :
    beBytes fuel x acc = beBytes fuel x [] ++ acc := by
  induction fuel generalizing x acc with
  | zero => simp [beBytes]
  | succ k ih =>
    unfold beBytes
    by_cases hx : x = 0
    · simp [hx]
    · rw [if_neg hx, if_neg hx, ih (x / 256) (x % 256 :: acc), ih (x / 256) [x % 256]]
      simp

theorem beBytes_length_le (fuel x : Nat) : (beBytes fuel x []).length ≤ fuel := by
  induction fuel generalizing x with
  | zero => simp [beBytes]
  | succ k ih =>
    unfold beBytes
    by_cases hx : x = 0
    · simp [hx]
    · rw [if_neg hx, beBytes_append]
      have := ih (x / 256)
      simp
      omega

theorem beBytes_length_pos (fuel x : Nat) (hx : x ≠ 0) :
    0 < (beBytes (fuel + 1) x []).length := by
  unfold beBytes
  rw [if_neg hx, beBytes_append]
  simp

theorem foldl_beBytes (fuel x : Nat) (hx : x < 256 ^ fuel) (h64 : x < 2 ^ 64) :
    (beBytes fuel x []).foldl (fun y c => (y * 256 + c) % 2 ^ 64) 0 = x := by
  induction fuel generalizing x with
  | zero =>
    have : x = 0 := by simpa using hx
    simp [beBytes, this]
  | succ k ih =>
    unfold beBytes
    by_cases h0 : x = 0
    · simp [h0]
    · rw [if_neg h0, beBytes_append, List.foldl_append]
      have hlt : x / 256 < 256 ^ k := by
        rw [Nat.div_lt_iff_lt_mul (by decide)]
        rw [pow_succ] at hx
        exact hx
      rw [ih (x / 256) hlt (by omega)]
      simp only [List.foldl_cons, List.foldl_nil]
      omega

theorem encodeUint_length_le (x : Nat) : (encodeUint x).length ≤ 9 := by
  unfold encodeUint
  split
  · simp
  · have := beBytes_length_le 8 x
    simp
    omega

theorem decodeUint_encodeUint (x : Nat) (hx : x < 2 ^ 64) (rest : List Nat) :
    decodeUint (encodeUint x ++ rest) = some (x, rest) := by
  unfold encodeUint
  by_cases hs : x ≤ 0x7F
  · rw [if_pos hs]
    simp [decodeUint, hs]
  · rw [if_neg hs]
    have hle := beBytes_length_le 8 x
    have hpos := beBytes_length_pos 7 x (by omega)
    have hfold := foldl_beBytes 8 x (by norm_num at hx ⊢; exact hx) hx
    generalize hbs : beBytes 8 x [] = bs at hle hpos hfold
    have hb : ¬ (256 - bs.length ≤ 0x7F) := by omega
    have hn : 256 - (256 - bs.length) = bs.length := by omega
    simp only [List.cons_append, decodeUint, if_neg hb, hn]
    rw [if_neg (by omega), if_neg (by simp)]
    simp only [List.take_left', List.drop_left', hfold]

theorem encodeInt_length_le (i : Int) : (encodeInt i).length ≤ 9 := by
  unfold encodeInt
  split <;> exact encodeUint_length_le _

theorem decodeInt_encodeInt (i : Int) (hlo : -2 ^ 63 ≤ i) (hhi : i < 2 ^ 63)
    (rest : List Nat) : decodeInt (encodeInt i ++ rest) = some (i, rest) := by
  unfold encodeInt decodeInt
  by_cases hneg : i < 0
  · rw [if_pos hneg]
    obtain ⟨k, hk⟩ : ∃ k : Nat, (k : Int) = -i - 1 := ⟨(-i - 1).toNat, by omega⟩
    have hk63 : k < 2 ^ 63 := by omega
    have hu : toUint64 ((-i - 1) * 2) = 2 * k := by
      unfold toUint64
      rw [← hk]
      omega
    have hor : 2 * k ||| 1 = 2 * k + 1 := by
      have := Nat.mul_add_lt_is_or (show 1 < 2 ^ 1 by decide) k
      simpa using this.symm
    rw [hu, hor, decodeUint_encodeUint (2 * k + 1) (by omega) rest]
    have hand : (2 * k + 1) &&& 1 ≠ 0 := by
      rw [Nat.and_one_is_mod]
      omega
    have hshift : (2 * k + 1) >>> 1 = k := by
      rw [Nat.shiftRight_eq_div_pow]
      omega
    simp only [hand, ne_eq, not_false_eq_true, if_true, hshift]
    congr 2
    omega
  · rw [if_neg hneg]
    obtain ⟨k, hk⟩ : ∃ k : Nat, (k : Int) = i := ⟨i.toNat, by omega⟩
    have hk63 : k < 2 ^ 63 := by omega
    have hu : toUint64 (i * 2) = 2 * k := by
      unfold toUint64
      rw [← hk]
      omega
    rw [hu, decodeUint_encodeUint (2 * k) (by omega) rest]
    have hand : ¬ ((2 * k) &&& 1 ≠ 0) := by
      rw [Nat.and_one_is_mod]
      omega
    have hshift : (2 * k) >>> 1 = k := by
      rw [Nat.shiftRight_eq_div_pow]
      omega
    simp only [hand, if_false, hshift, hk]

theorem decodeString_encodeString (s : String) (hs : s.length < 2 ^ 64) (rest : List Nat) :
    decodeString (encodeString s ++ rest) = some (s, rest) := by
  unfold encodeString decodeString
  rw [List.append_assoc, decodeUint_encodeUint s.length hs]
  have hlen : (s.data.map Char.toNat).length = s.length := by
    rw [List.length_map]
    rfl
  have hnot : ¬ ((s.data.map Char.toNat ++ rest).length < s.length) := by
    rw [List.length_append, hlen]
    omega
  simp only [if_neg hnot]
  rw [List.take_left' hlen, List.drop_left' hlen]
  simp [Function.comp_def]

theorem decodePingArgs_encodePingArgs (a : PingArgs) (hlo : -2 ^ 63 ≤ a.ID)
    (hhi : a.ID < 2 ^ 63) : decodePingArgs ⟨0⟩ (encodePingArgs a) = some (a, []) := by
  obtain ⟨i⟩ := a
  change -2 ^ 63 ≤ i at hlo
  change i < 2 ^ 63 at hhi
  unfold decodePingArgs encodePingArgs
  by_cases h0 : i = 0
  · subst h0
    decide
  · have hu1 : encodeUint 1 = [1] := by decide
    have hu0 : encodeUint 0 = [0] := by decide
    simp only [if_neg h0, hu1, hu0, List.append_assoc, List.singleton_append, List.cons_append,
      List.nil_append, List.length_cons]
    have hd1 : ∀ t, decodeUint (1 :: t) = some (1, t) := fun t => by simp [decodeUint]
    have hd0 : decodeUint [0] = some (0, []) := by simp [decodeUint]
    rw [decodePingArgsFields]
    simp only [List.cons_ne_nil, if_false, hd1]
    rw [decodeInt_encodeInt i hlo hhi [0]]
    simp only [List.length_append, List.length_singleton]
    rw [decodePingArgsFields]
    simp [hd0]

theorem decodePingReply_encodePingReply (r : PingReply) (hs : r.Message.length < 2 ^ 64) :
    decodePingReply ⟨""⟩ (encodePingReply r) = some (r, []) := by
  obtain ⟨m⟩ := r
  change m.length < 2 ^ 64 at hs
  unfold decodePingReply encodePingReply
  by_cases h0 : m = ""
  · subst h0
    decide
  · have hu1 : encodeUint 1 = [1] := by decide
    have hu0 : encodeUint 0 = [0] := by decide
    simp only [if_neg h0, hu1, hu0, List.append_assoc, List.singleton_append, List.cons_append,
      List.nil_append, List.length_cons]
    have hd1 : ∀ t, decodeUint (1 :: t) = some (1, t) := fun t => by simp [decodeUint]
    have hd0 : decodeUint [0] = some (0, []) := by simp [decodeUint]
    rw [decodePingReplyFields]
    simp only [List.cons_ne_nil, if_false, hd1]
    rw [decodeString_encodeString m hs [0]]
    simp only [List.length_append, List.length_singleton]
    rw [decodePingReplyFields]
    simp [hd0]

theorem recvMessage_encodeMessage (typeId : Int) (body rest : List Nat)
    (hlen : body.length + 9 < 2 ^ 64) :
    recvMessage (encodeMessage typeId body ++ rest) = some (encodeInt typeId ++ body, rest) := by
  unfold recvMessage encodeMessage
  have h9 := encodeInt_length_le typeId
  rw [List.append_assoc, decodeUint_encodeUint _ (by simp; omega)]
  have hnot : ¬ ((encodeInt typeId ++ body ++ rest).length < (encodeInt typeId ++ body).length) := by
    simp
  simp only [if_neg hnot]
  rw [List.take_left' rfl, List.drop_left' rfl]

theorem encodePingArgs_length_le (a : PingArgs) : (encodePingArgs a).length ≤ 19 := by
  unfold encodePingArgs
  have h1 := encodeUint_length_le 1
  have h0 := encodeUint_length_le 0
  have hi := encodeInt_length_le a.ID
  have hu0 : encodeUint 0 = [0] := by decide
  have hu1 : encodeUint 1 = [1] := by decide
  split
  · simp [hu0]
  · simp [hu0, hu1]
    omega

theorem encodePingReply_length_le (r : PingReply) :
    (encodePingReply r).length ≤ r.Message.length + 11 := by
  unfold encodePingReply encodeString
  have hl := encodeUint_length_le r.Message.length
  have hu0 : encodeUint 0 = [0] := by decide
  have hu1 : encodeUint 1 = [1] := by decide
  have hd : r.Message.data.length = r.Message.length := rfl
  split
  · simp [hu0]
  · simp [hu0, hu1, hd]
    omega

/-- C10: the message codec round-trips.  For every `PingArgs` value whose ID is a 64-bit
integer and every `PingReply` value (any string, of a length a Go string can have), the
message sent under the connection's type id, received into a fresh zero value as the
server and the client do, yields the original value and leaves the rest of the stream
untouched. -/
theorem wire_round_trip (typeId : Int) (a : PingArgs) (r : PingReply) (rest : List Nat)
    (hid : 0 ≤ typeId ∧ typeId < 2 ^ 63)
    (ha : -2 ^ 63 ≤ a.ID ∧ a.ID < 2 ^ 63)
    (hr : r.Message.length < 2 ^ 63) :
    recvPingArgs typeId ⟨0⟩ (sendPingArgs typeId a ++ rest) = some (a, rest) ∧
    recvPingReply typeId ⟨""⟩ (sendPingReply typeId r ++ rest) = some (r, rest) := by
  constructor
  · unfold recvPingArgs sendPingArgs
    have hlen := encodePingArgs_length_le a
    rw [recvMessage_encodeMessage typeId _ rest (by omega)]
    simp only
    rw [decodeInt_encodeInt typeId (by omega) hid.2]
    simp only [ne_eq, not_true_eq_false, if_false]
    rw [decodePingArgs_encodePingArgs a ha.1 ha.2]
  · unfold recvPingReply sendPingReply
    have hlen := encodePingReply_length_le r
    rw [recvMessage_encodeMessage typeId _ rest (by omega)]
    simp only
    rw [decodeInt_encodeInt typeId (by omega) hid.2]
    simp only [ne_eq, not_true_eq_false, if_false]
    rw [decodePingReply_encodePingReply r (by omega)]

/-- The witness of C10: a negative sender ID and the greeting of node 1 to node 2, under
type id 65, with one more byte following on the stream. -/
theorem wire_round_trip_witness :
    recvPingArgs 65 ⟨0⟩ (sendPingArgs 65 ⟨-7⟩ ++ [3]) = some (⟨-7⟩, [3]) ∧
    recvPingReply 65 ⟨""⟩ (sendPingReply 65 ⟨"Hello 2, I am Node 1 and I am alive!"⟩ ++ [3])
      = some (⟨"Hello 2, I am Node 1 and I am alive!"⟩, [3]) :=
  wire_round_trip 65 ⟨-7⟩ ⟨"Hello 2, I am Node 1 and I am alive!"⟩ [3]
    (by decide) (by decide) (by decide)

end DistributedGo
